import Mathlib

/-!
Verification of the Historical Merge & Derived-Analytics Engine of the
market-cycle-tracker repository (scripts/update_market_data.py), against its
natural-language specification.

Modelling conventions:
* Python floats are modelled as exact rationals (`ℚ`) wherever a claim does not
  depend on IEEE-754 rounding of intermediate arithmetic; where the success or
  failure of a conversion to float matters (overflow of huge integers), the
  exact double-precision overflow threshold `2^1024 - 2^970` is used.
* Python `round` is round-half-to-even (banker's rounding), modelled exactly on
  rationals by `pyRound` / `pyRoundTo`.
* CSV rows are modelled as records with typed fields; the `Date` strings of the
  monthly file (`"YYYY-MM-DD"`, zero padded) are modelled as `PyDate` triples,
  on which Python's lexicographic string comparison coincides with
  lexicographic order on (year, month, day), and
  `date.startswith(month_end.strftime(yyyy_mm))` coincides with equality of
  year and month.
-/

set_option maxRecDepth 16384

namespace MarketCycle

/-- Python's built-in `round(x)` on exact rationals: round half to even
(banker's rounding), returning an integer. -/
def pyRound (q : ℚ) : ℤ :=
  if q - q.floor < 1/2 then q.floor
  else if 1/2 < q - q.floor then q.floor + 1
  else if q.floor % 2 = 0 then q.floor else q.floor + 1

/-- Python's `round(x, n)` on exact rationals: round half to even at the
`n`-th decimal place. -/
def pyRoundTo (q : ℚ) (n : ℕ) : ℚ :=
  (pyRound (q * (10 : ℚ) ^ n) : ℚ) / (10 : ℚ) ^ n

/-- `MarketDataUpdater.calculate_percentile` (update_market_data.py, lines
161–170): percentile rank of `current_pe` against `historical_pes`; returns
the default `50` when there is no historical data, otherwise the share of
historical ratios strictly below `current_pe`, times 100, rounded with
Python's `round` to an integer. -/
def calculate_percentile (historical_pes : List ℚ) (current_pe : ℚ) : ℤ :=
  if historical_pes = [] then 50
  else
    let below_current := (historical_pes.filter (fun pe => pe < current_pe)).length
    let total := historical_pes.length
    pyRound (((below_current : ℚ) / (total : ℚ)) * 100)

/-- The record returned by `MarketDataUpdater.determine_market_status`. -/
structure MarketStatus where
  status : String
  status_text : String
  expected_return : String
  description : String
deriving DecidableEq, Repr

/-- `MarketDataUpdater.determine_market_status` (update_market_data.py, lines
172–201): the four-way classification the code actually implements. -/
def determine_market_status (pe_ratio : ℚ) : MarketStatus :=
  if pe_ratio < 16 then
    ⟨"attractive", "ATTRACTIVE", "8-12%",
      "Market appears undervalued based on historical standards"⟩
  else if pe_ratio < 20 then
    ⟨"fair", "FAIR VALUE", "5-8%",
      "Market is fairly valued relative to historical norms"⟩
  else if pe_ratio < 25 then
    ⟨"expensive", "EXPENSIVE", "3-5%",
      "Market appears expensive based on historical standards"⟩
  else
    ⟨"very-expensive", "VERY EXPENSIVE", "0-3%",
      "Market is very expensive relative to historical norms"⟩

/-- The seven-bucket classification table stated by the specification
(`[0,12)→Screaming-Buy`, …, `[35,∞)→Bubble`); written from the spec's words,
to be compared with `determine_market_status` from the source. -/
def specClassifyBucket (r : ℚ) : String :=
  if r < 12 then "Screaming-Buy"
  else if r < 16 then "Very-Attractive"
  else if r < 20 then "Attractive"
  else if r < 25 then "Fair-Value"
  else if r < 30 then "Expensive"
  else if r < 35 then "Very-Expensive"
  else "Bubble"

/-- Membership of a ratio in a half-open range `[lo, hi)`, where a missing
bound means unbounded on that side. -/
def inRange (r : ℚ) (lo hi : Option ℚ) : Bool :=
  (match lo with
   | Option.none => true
   | Option.some l => decide (l ≤ r)) &&
  (match hi with
   | Option.none => true
   | Option.some h => decide (r < h))

/-- The half-open range table that `determine_market_status` actually
implements on nonnegative ratios: `[0,16)→attractive`, `[16,20)→fair`,
`[20,25)→expensive`, `[25,∞)→very-expensive`. -/
def statusRanges : List ((Option ℚ × Option ℚ) × MarketStatus) :=
  [((Option.some 0, Option.some 16), determine_market_status 0),
   ((Option.some 16, Option.some 20), determine_market_status 16),
   ((Option.some 20, Option.some 25), determine_market_status 20),
   ((Option.some 25, Option.none), determine_market_status 25)]

/-- Modelled from the spec: `MetricDeriver.impliedForwardReturn`. No
implementation exists under `src/` — the analysis scripts
(`cape_scatterplot.py`, `sp500_pe_returns_analysis.py`) that
`generate_visualization.py` says it was adapted from are not present in the
repository — so the definition follows the spec's words: a fixed linear model
`return% = -0.327*ratio + 15.42` with coefficients `slope = -0.327`,
`intercept = 15.42`, not re-estimated from the series. -/
def impliedForwardReturn (r : ℚ) : ℚ := -0.327 * r + 15.42

/-- A Python float value: a finite value (kept as an exact rational — IEEE-754
rounding of finite results is abstracted away, no claim depends on it), an
infinity, or NaN. -/
inductive FloatV where
  | finite (val : ℚ)
  | inf
  | negInf
  | nan
deriving DecidableEq, Repr

/-- Negation of a float value (`float('-…')`). -/
def FloatV.neg : FloatV → FloatV
  | .finite q => .finite (-q)
  | .inf => .negInf
  | .negInf => .inf
  | .nan => .nan

/-- Smallest magnitude at which a real value rounds to ±∞ under IEEE-754
double round-to-nearest-even: the midpoint between the largest finite double
`2^1024 - 2^971` and `2^1024`. -/
def doubleOverflowBound : ℚ := ((2 ^ 1024 - 2 ^ 970 : ℕ) : ℚ)

/-- Clamp an exactly parsed decimal value the way CPython's string-to-float
conversion does: magnitudes at or beyond `doubleOverflowBound` become ±∞
(no exception); everything else stays finite (kept exact, see `FloatV`). -/
def satFloat (q : ℚ) : FloatV :=
  if doubleOverflowBound ≤ q then .inf
  else if q ≤ -doubleOverflowBound then .negInf
  else .finite q

/-- Numeric value of a decimal digit. -/
def digitVal (c : Char) : ℕ := c.toNat - '0'.toNat

/-- Value of a (possibly empty) string of decimal digits. -/
def digitsToNat (ds : List Char) : ℕ :=
  ds.foldl (fun acc c => 10 * acc + digitVal c) 0

/-- The digits-and-one-optional-dot part of a float literal: `digits`,
`digits.digits`, `digits.` or `.digits` (at least one digit in total). -/
def parseMantissa (cs : List Char) : Option ℚ :=
  let intPart := cs.takeWhile Char.isDigit
  let rest := cs.drop intPart.length
  match rest with
  | [] => if intPart.isEmpty then Option.none else Option.some (digitsToNat intPart : ℚ)
  | '.' :: frac =>
    if frac.all Char.isDigit && !(intPart.isEmpty && frac.isEmpty) then
      Option.some (((digitsToNat intPart : ℚ) * 10 ^ frac.length + digitsToNat frac) / 10 ^ frac.length)
    else Option.none
  | _ => Option.none

/-- The signed-integer exponent part of a float literal (after `e`/`E`). -/
def parseExpPart (cs : List Char) : Option ℤ :=
  match cs with
  | '+' :: ds =>
    if !ds.isEmpty && ds.all Char.isDigit then Option.some (digitsToNat ds : ℤ) else Option.none
  | '-' :: ds =>
    if !ds.isEmpty && ds.all Char.isDigit then Option.some (-(digitsToNat ds : ℤ)) else Option.none
  | ds =>
    if !ds.isEmpty && ds.all Char.isDigit then Option.some (digitsToNat ds : ℤ) else Option.none

/-- Case-insensitive comparison of a character list with a keyword. -/
def lowerIs (cs : List Char) (kw : String) : Bool :=
  cs.map Char.toLower == kw.toList

/-- An unsigned Python float literal: the keywords `inf`/`infinity`/`nan`
(case-insensitive) or a decimal mantissa with optional `e`/`E` exponent. -/
def parseUnsignedFloat (cs : List Char) : Option FloatV :=
  if lowerIs cs "inf" || lowerIs cs "infinity" then Option.some FloatV.inf
  else if lowerIs cs "nan" then Option.some FloatV.nan
  else
    let mant := cs.takeWhile (fun c => c != 'e' && c != 'E')
    match cs.drop mant.length with
    | [] => (parseMantissa mant).map satFloat
    | _ :: expPart =>
      match parseMantissa mant, parseExpPart expPart with
      | Option.some m, Option.some e => Option.some (satFloat (m * (10 : ℚ) ^ e))
      | _, _ => Option.none

/-- Model of CPython's `float(str)` conversion: strip surrounding whitespace,
an optional sign, then an unsigned float literal; `none` models
`ValueError`. (CPython additionally allows underscores between digits and a
wider class of Unicode spaces/digits — no claim depends on those inputs.) -/
def parsePyFloat (s : String) : Option FloatV :=
  let cs := ((s.toList.dropWhile Char.isWhitespace).reverse.dropWhile Char.isWhitespace).reverse
  match cs with
  | '+' :: rest => parseUnsignedFloat rest
  | '-' :: rest => (parseUnsignedFloat rest).map FloatV.neg
  | rest => parseUnsignedFloat rest

/-- A Python value that may be handed to `float(...)`: a string, an integer,
a float, `None`, or any other non-numeric object. -/
inductive PyValue where
  | str (s : String)
  | int (n : ℤ)
  | float (v : FloatV)
  | pyNone
  | obj
deriving DecidableEq, Repr

/-- The exceptions relevant to `float(...)` conversion. -/
inductive PyErr where
  | valueError
  | typeError
  | overflowError
deriving DecidableEq, Repr

/-- `float(int)` raises `OverflowError` exactly when the integer's magnitude
rounds beyond the largest finite double. -/
def intOverflowsDouble (n : ℤ) : Bool :=
  decide ((2 ^ 1024 - 2 ^ 970 : ℕ) ≤ n.natAbs)

/-- Outcome of calling a Python function: a returned value or a raised
exception. -/
inductive PyResult where
  | ok (v : FloatV)
  | raised (e : PyErr)
deriving DecidableEq, Repr

/-- Model of the builtin `float(value)`: strings parse or raise `ValueError`;
integers convert exactly or raise `OverflowError` when too large; floats pass
through; `None` and non-numeric objects raise `TypeError`. -/
def pyFloatFn : PyValue → PyResult
  | .str s =>
    match parsePyFloat s with
    | Option.some v => .ok v
    | Option.none => .raised .valueError
  | .int n => if intOverflowsDouble n then .raised .overflowError else .ok (.finite (n : ℚ))
  | .float v => .ok v
  | .pyNone => .raised .typeError
  | .obj => .raised .typeError

/-- `MarketDataUpdater.safe_float` (update_market_data.py, lines 203–208):
`try: return float(value) except (ValueError, TypeError): return default`.
A `.raised` result models an exception escaping `safe_float`. -/
def safe_float (value : PyValue) (default : FloatV) : PyResult :=
  match pyFloatFn value with
  | .ok v => .ok v
  | .raised PyErr.valueError => .ok default
  | .raised PyErr.typeError => .ok default
  | .raised e => .raised e

/-- `safe_float` on a string field with the default `0.0` — the form used on
every CSV row of `load_historical_data`; string conversion never raises, so
this is total. -/
def safeFloatOfStr (s : String) : FloatV :=
  (parsePyFloat s).getD (FloatV.finite 0)

/-- Python's `pe > 0` on a float value. -/
def floatGtZero : FloatV → Bool
  | .finite q => decide (0 < q)
  | .inf => true
  | .negInf => false
  | .nan => false

/-- The built-in default historical PE list of `load_historical_data`
(update_market_data.py, lines 58–64), used when neither data file yields any
positive PE. -/
def defaultHistoricalPEs : List ℚ :=
  [7.2, 8.1, 10.9, 11.3, 9.6, 14.5, 18.0, 14.3, 11.7, 15.1,
   15.5, 22.8, 21.8, 21.4, 15.0, 18.1, 19.1, 24.4, 32.9, 30.5,
   26.4, 27.6, 31.4, 22.7, 20.7, 18.9, 17.4, 17.4, 70.9, 20.7,
   16.3, 14.9, 16.5, 18.5, 20.0, 22.3, 23.7, 25.3, 20.0, 23.2,
   35.3, 24.9, 19.8, 24.7, 29.6]

/-- The per-row body of `load_historical_data`'s read loops
(update_market_data.py, lines 33–36 and 47–50): convert each row's PE field
with `safe_float` (default `0.0`) and keep it only when `pe > 0`; malformed
fields therefore become `0.0` and are dropped without any error. -/
def load_pe_column (fields : List String) : List FloatV :=
  fields.filterMap fun s =>
    let pe := safeFloatOfStr s
    if floatGtZero pe then Option.some pe else Option.none

/-- `MarketDataUpdater.load_historical_data` (update_market_data.py, lines
25–64), happy path of the file reads: take the PE column of the monthly file,
fall back to the annual file's column when it yields nothing, and fall back to
`defaultHistoricalPEs` when that also yields nothing. A missing file is
modelled by an empty field list. -/
def load_historical_data (monthlyFields annualFields : List String) : List FloatV :=
  let pes := load_pe_column monthlyFields
  if pes.isEmpty then
    let annual := load_pe_column annualFields
    if annual.isEmpty then defaultHistoricalPEs.map FloatV.finite else annual
  else pes

/-- A calendar date as stored in the monthly file's zero-padded `YYYY-MM-DD`
`Date` strings; lexicographic string comparison of such strings coincides with
lexicographic order on `(y, m, d)`. -/
structure PyDate where
  y : ℕ
  m : ℕ
  d : ℕ
deriving DecidableEq, Repr

/-- Python string `≤` on two `YYYY-MM-DD` date strings (the key of
`monthly_data.sort`): lexicographic on `(y, m, d)`. -/
def dateLe (a b : PyDate) : Bool :=
  decide (a.y < b.y) ||
  (decide (a.y = b.y) &&
    (decide (a.m < b.m) || (decide (a.m = b.m) && decide (a.d ≤ b.d))))

/-- `row['Date'].startswith(month_end.strftime('%Y-%m'))` on well-formed
dates: the row's date lies in `month_end`'s year and month. -/
def sameMonth (rowDate monthEnd : PyDate) : Bool :=
  decide (rowDate.y = monthEnd.y) && decide (rowDate.m = monthEnd.m)

/-- One row of `monthly_sp500.csv`, with the fields `update_monthly_data`
writes (`Date`, `Year`, `Month`, `PE_Ratio`, `SP500_Price`, `Month_End`). -/
structure MonthlyRow where
  date : PyDate
  year : ℕ
  month : ℕ
  pe_ratio : ℚ
  sp500_price : ℚ
  month_end : PyDate
deriving DecidableEq, Repr

/-- The `new_entry` dict built by `update_monthly_data` (update_market_data.py,
lines 251–258): the month-end date with the current PE rounded to one decimal
and the price rounded to two. -/
def mkNewEntry (month_end : PyDate) (current_pe sp500_price : ℚ) : MonthlyRow :=
  { date := month_end
    year := month_end.y
    month := month_end.m
    pe_ratio := pyRoundTo current_pe 1
    sp500_price := pyRoundTo sp500_price 2
    month_end := month_end }

/-- The period (year and month) of a stored record — the spec's unique key. -/
def rowPeriod (r : MonthlyRow) : ℕ × ℕ := (r.date.y, r.date.m)

/-- Strict ascending order on periods. -/
def periodLt (a b : MonthlyRow) : Prop :=
  a.date.y < b.date.y ∨ (a.date.y = b.date.y ∧ a.date.m < b.date.m)

instance (a b : MonthlyRow) : Decidable (periodLt a b) := by
  unfold periodLt
  exact inferInstance

/-- The merge core of `MarketDataUpdater.update_monthly_data`
(update_market_data.py, lines 242–269): find the first row whose `Date` starts
with the new entry's `YYYY-MM`; replace it with the new entry if found,
otherwise append the new entry; then sort by `Date`. (Python's `list.sort` is
a stable sort by the `Date` string; it is modelled by `mergeSort` with the
lexicographic date order, which is also stable.) -/
def update_monthly_data (monthly_data : List MonthlyRow) (month_end : PyDate)
    (current_pe sp500_price : ℚ) : List MonthlyRow :=
  let new_entry := mkNewEntry month_end current_pe sp500_price
  let updated :=
    match monthly_data.findIdx? (fun row => sameMonth row.date month_end) with
    | Option.some i => monthly_data.set i new_entry
    | Option.none => monthly_data ++ [new_entry]
  updated.mergeSort (fun a b => dateLe a.date b.date)

/-- A file-system operation, for describing what the persistence code does. -/
inductive FsEvent where
  | openWrite (path : String)
  | writeAll (path : String)
  | close (path : String)
  | rename (src dst : String)
deriving DecidableEq, Repr

/-- The sequence of file-system operations the persistence code performs
(update_market_data.py, lines 273–276 for the monthly CSV and lines 392–394
for the snapshot JSON): `open(target, 'w')` — which truncates the destination
in place — then write the serialized data, then close. -/
def persistTrace (target : String) : List FsEvent :=
  [FsEvent.openWrite target, FsEvent.writeAll target, FsEvent.close target]

/-- The spec's write-temp-then-rename discipline, as a predicate on an
operation trace: all writing happens at some temporary path distinct from the
target, and the result becomes visible only through a rename onto the
target. -/
def atomicViaTempRename (trace : List FsEvent) (target : String) : Prop :=
  ∃ tmp, tmp ≠ target ∧
    (∀ e ∈ trace, e ≠ FsEvent.openWrite target ∧ e ≠ FsEvent.writeAll target) ∧
    FsEvent.rename tmp target ∈ trace

/-- The spec's percentile formula (`fraction of historical ratios strictly
less than currentRatio, ×100`), before any rounding; written from the spec's
words, to be compared with `calculate_percentile` from the source. -/
def specPercentileRank (s : List ℚ) (r : ℚ) : ℚ :=
  ((s.filter (fun pe => pe < r)).length : ℚ) / (s.length : ℚ) * 100

end MarketCycle

namespace MarketCycle

/-! ### Helper lemmas about the rounding model -/

theorem ratFloor_eq_intFloor (q : ℚ) : q.floor = ⌊q⌋ := by
  rw [Rat.floor_def', Rat.floor_def]

theorem pyRound_eq (q : ℚ) :
    pyRound q =
      if q - ⌊q⌋ < 1/2 then ⌊q⌋
      else if 1/2 < q - ⌊q⌋ then ⌊q⌋ + 1
      else if ⌊q⌋ % 2 = 0 then ⌊q⌋ else ⌊q⌋ + 1 := by
  simp only [pyRound, ratFloor_eq_intFloor]

theorem floor_le_pyRound (q : ℚ) : ⌊q⌋ ≤ pyRound q := by
  rw [pyRound_eq]; split_ifs <;> omega

theorem pyRound_le_floor_add_one (q : ℚ) : pyRound q ≤ ⌊q⌋ + 1 := by
  rw [pyRound_eq]; split_ifs <;> omega

theorem pyRound_mono {a b : ℚ} (h : a ≤ b) : pyRound a ≤ pyRound b := by
  rcases lt_or_le ⌊a⌋ ⌊b⌋ with hf | hf
  · calc pyRound a ≤ ⌊a⌋ + 1 := pyRound_le_floor_add_one a
      _ ≤ ⌊b⌋ := by omega
      _ ≤ pyRound b := floor_le_pyRound b
  · have hfe : ⌊a⌋ = ⌊b⌋ := le_antisymm (Int.floor_mono h) hf
    rw [pyRound_eq, pyRound_eq, hfe]
    split_ifs <;> first | omega | linarith

theorem int_le_pyRound {n : ℤ} {q : ℚ} (h : (n : ℚ) ≤ q) : n ≤ pyRound q :=
  le_trans (Int.le_floor.mpr h) (floor_le_pyRound q)

theorem pyRound_le_int {q : ℚ} {n : ℤ} (h : q ≤ (n : ℚ)) : pyRound q ≤ n := by
  have hfl : ⌊q⌋ ≤ n := by
    have := Int.floor_mono h
    rwa [Int.floor_intCast] at this
  have hle : (⌊q⌋ : ℚ) ≤ q := Int.floor_le q
  rw [pyRound_eq]
  split_ifs with h1 h2 h3
  · exact hfl
  · have hlt : ((⌊q⌋ : ℚ)) < (n : ℚ) := by linarith
    have : ⌊q⌋ < n := by exact_mod_cast hlt
    omega
  · exact hfl
  · have hge : (⌊q⌋ : ℚ) + 1/2 ≤ q := by linarith
    have hlt : ((⌊q⌋ : ℚ)) < (n : ℚ) := by linarith
    have : ⌊q⌋ < n := by exact_mod_cast hlt
    omega

theorem length_filter_lt_mono (l : List ℚ) {r1 r2 : ℚ} (h : r1 ≤ r2) :
    (l.filter (fun pe => pe < r1)).length ≤ (l.filter (fun pe => pe < r2)).length := by
  induction l with
  | nil => simp
  | cons a t ih =>
    simp only [List.filter_cons]
    by_cases h1 : a < r1
    · have h2 : a < r2 := lt_of_lt_of_le h1 h
      simp [h1, h2]
      omega
    · by_cases h2 : a < r2 <;> simp [h1, h2] <;> omega

/-! ### Claim theorems -/

/-- C2 (counterexample): on the series `[10, 20, 30]` and ratio `25`, the code
returns the integer `67` — `round(66.66…)` with Python's integer `round` —
not the one-decimal value `66.7` the claim states. -/
theorem C2_counterexample :
    calculate_percentile [10, 20, 30] 25 = 67 ∧ (67 : ℚ) ≠ 667 / 10 := by
  constructor
  · with_unfolding_all decide
  · norm_num

/-- C2 (amended): for every non-empty series, `calculate_percentile` equals
the fraction of historical ratios strictly below the current one, times 100,
rounded half-to-even to the nearest INTEGER (not to one decimal place), and
lies in `[0, 100]`; on `[10, 20, 30]` with ratio `25` it returns `67`. -/
theorem C2_percentile_amended (S : List ℚ) (r : ℚ) (h : S ≠ []) :
    calculate_percentile S r = pyRound (specPercentileRank S r) ∧
    0 ≤ calculate_percentile S r ∧ calculate_percentile S r ≤ 100 := by
  have hlen : 0 < S.length := List.length_pos.mpr h
  have hlenq : (0 : ℚ) < (S.length : ℚ) := by exact_mod_cast hlen
  have heq : calculate_percentile S r = pyRound (specPercentileRank S r) := by
    simp [calculate_percentile, specPercentileRank, h]
  have hq0 : 0 ≤ specPercentileRank S r := by
    unfold specPercentileRank
    positivity
  have hq100 : specPercentileRank S r ≤ 100 := by
    unfold specPercentileRank
    have hc : ((S.filter (fun pe => pe < r)).length : ℚ) ≤ (S.length : ℚ) := by
      exact_mod_cast List.length_filter_le _ S
    have h1 : ((S.filter (fun pe => pe < r)).length : ℚ) / (S.length : ℚ) ≤ 1 := by
      rw [div_le_one hlenq]; exact hc
    calc ((S.filter (fun pe => pe < r)).length : ℚ) / (S.length : ℚ) * 100
        ≤ 1 * 100 := by
          exact mul_le_mul_of_nonneg_right h1 (by norm_num)
      _ = 100 := by norm_num
  refine ⟨heq, ?_, ?_⟩ <;> rw [heq]
  · exact int_le_pyRound (by exact_mod_cast hq0)
  · exact pyRound_le_int (by exact_mod_cast hq100)

/-- C2 (witness): the amended statement at the claim's own example, series
`[10, 20, 30]` and ratio `25`. -/
theorem C2_witness :
    calculate_percentile [10, 20, 30] 25 = pyRound (specPercentileRank [10, 20, 30] 25) ∧
    0 ≤ calculate_percentile [10, 20, 30] 25 ∧ calculate_percentile [10, 20, 30] 25 ≤ 100 :=
  C2_percentile_amended [10, 20, 30] 25 (by decide)

/-- C9: for a fixed historical series, `calculate_percentile` is monotonically
non-decreasing in the current ratio. -/
theorem C9_percentile_mono (S : List ℚ) {r1 r2 : ℚ} (h : r1 ≤ r2) :
    calculate_percentile S r1 ≤ calculate_percentile S r2 := by
  unfold calculate_percentile
  by_cases hS : S = []
  · simp [hS]
  · simp only [hS, if_false, if_neg hS]
    apply pyRound_mono
    have hc := length_filter_lt_mono S h
    have hcq : ((S.filter (fun pe => pe < r1)).length : ℚ) ≤
        ((S.filter (fun pe => pe < r2)).length : ℚ) := by exact_mod_cast hc
    have hlenq : (0 : ℚ) < (S.length : ℚ) := by
      exact_mod_cast List.length_pos.mpr hS
    exact mul_le_mul_of_nonneg_right
      ((div_le_div_iff_of_pos_right hlenq).mpr hcq) (by norm_num)

/-- C9 (witness): monotonicity at the concrete series `[10, 20, 30]` and
ratios `20 ≤ 25`. -/
theorem C9_witness :
    calculate_percentile [10, 20, 30] 20 ≤ calculate_percentile [10, 20, 30] 25 :=
  C9_percentile_mono [10, 20, 30] (by norm_num)

/-- C6 (counterexample): on the empty series the code returns the plain
integer `50` — the same numeric value a genuinely computed percentile can
take, as on `[10, 30]` with ratio `20` — not a null/sentinel failure. -/
theorem C6_counterexample :
    calculate_percentile [] 25 = 50 ∧ calculate_percentile [10, 30] 20 = 50 := by
  constructor
  · with_unfolding_all decide
  · with_unfolding_all decide

/-- C6 (amended): for the empty historical series, `calculate_percentile`
returns the numeric default `50` (the median), for every ratio; no exception
and no null sentinel. -/
theorem C6_empty_percentile (r : ℚ) : calculate_percentile [] r = 50 := by
  simp [calculate_percentile]

/-- C5 (counterexample): with the spec's own fixed coefficients,
`impliedForwardReturn(38.0)` rounded to two decimals is `2.99`
(`-0.327*38.0 + 15.42 = 2.994`), not the `2.85` the claim states. -/
theorem C5_counterexample :
    pyRoundTo (impliedForwardReturn 38) 2 = 2.99 ∧ (2.99 : ℚ) ≠ 2.85 := by
  constructor
  · with_unfolding_all decide
  · norm_num

/-- C5 (amended): `impliedForwardReturn` is the fixed affine model
`15.42 - 0.327*r` (slope `-0.327`, intercept `15.42`, percent), and at ratio
`38.0` its value rounded to two decimals is `2.99`. -/
theorem C5_implied_forward_return (r : ℚ) (h : 0 < r) :
    impliedForwardReturn r = 15.42 - 0.327 * r ∧
    pyRoundTo (impliedForwardReturn 38) 2 = 2.99 := by
  constructor
  · unfold impliedForwardReturn; ring
  · with_unfolding_all decide

/-- C5 (witness): the amended statement at the claim's own example `r = 38`. -/
theorem C5_witness :
    impliedForwardReturn 38 = 15.42 - 0.327 * 38 ∧
    pyRoundTo (impliedForwardReturn 38) 2 = 2.99 :=
  C5_implied_forward_return 38 (by norm_num)

/-- C10 (counterexample): `safe_float` only catches `ValueError` and
`TypeError`; `float(10**400)` raises `OverflowError`, which escapes. -/
theorem C10_counterexample :
    safe_float (PyValue.int (10 ^ 400)) (FloatV.finite 0) =
      PyResult.raised PyErr.overflowError := by
  with_unfolding_all decide

/-- C10 (amended): for every input value that is not an integer too large for
a double, `safe_float` returns normally: the converted float when conversion
succeeds, the supplied default when `float(...)` raises `ValueError` or
`TypeError`. (An integer beyond the double range raises an uncaught
`OverflowError` instead.) -/
theorem C10_safe_float_amended (v : PyValue) (d : FloatV)
    (h : ∀ n : ℤ, v = PyValue.int n → intOverflowsDouble n = false) :
    safe_float v d =
      PyResult.ok (match pyFloatFn v with
        | PyResult.ok w => w
        | PyResult.raised _ => d) := by
  cases v with
  | str s => cases hp : parsePyFloat s <;> simp [safe_float, pyFloatFn, hp]
  | int n =>
    have hn := h n rfl
    simp [safe_float, pyFloatFn, hn]
  | float w => simp [safe_float, pyFloatFn]
  | pyNone => simp [safe_float, pyFloatFn]
  | obj => simp [safe_float, pyFloatFn]

/-- C10 (witness): the amended statement at the malformed string `"abc"`,
which is coerced to the default `0.0`. -/
theorem C10_witness :
    safe_float (PyValue.str "abc") (FloatV.finite 0) = PyResult.ok (FloatV.finite 0) := by
  have h := C10_safe_float_amended (PyValue.str "abc") (FloatV.finite 0)
    (by intro n hn; simp at hn)
  rw [h]
  with_unfolding_all decide

/-- C7 (counterexample): a malformed PE field (`"garbage"`) does not make the
load fail — the row is silently dropped (three fields in, two values out) and
the remaining rows are returned. -/
theorem C7_counterexample :
    load_pe_column ["10.5", "garbage", "20.1"] = [FloatV.finite 10.5, FloatV.finite 20.1] ∧
    (["10.5", "garbage", "20.1"] : List String).length = 3 ∧
    (load_pe_column ["10.5", "garbage", "20.1"]).length = 2 := by
  refine ⟨?_, rfl, ?_⟩ <;> with_unfolding_all decide

/-- C7 (amended): `load_historical_data` never fails on malformed entries:
a field that does not parse as a float is coerced to `0.0` by `safe_float`
and silently dropped by the `pe > 0` filter, leaving the other rows
untouched; and when no row qualifies at all the loader substitutes the
built-in default series rather than reporting corruption. -/
theorem C7_load_amended (pre suf : List String) (bad : String)
    (h : parsePyFloat bad = Option.none) :
    load_pe_column (pre ++ bad :: suf) = load_pe_column (pre ++ suf) ∧
    load_historical_data [] [] = defaultHistoricalPEs.map FloatV.finite := by
  constructor
  · simp [load_pe_column, List.filterMap_append, List.filterMap_cons,
      safeFloatOfStr, h, floatGtZero]
  · simp [load_historical_data, load_pe_column]

/-- C7 (witness): the amended statement with the malformed field `"garbage"`
between two well-formed rows. -/
theorem C7_witness :
    load_pe_column (["10.5"] ++ "garbage" :: ["20.1"]) = load_pe_column (["10.5"] ++ ["20.1"]) ∧
    load_historical_data [] [] = defaultHistoricalPEs.map FloatV.finite :=
  C7_load_amended ["10.5"] ["20.1"] "garbage" (by with_unfolding_all decide)

/-- C8 (counterexample): the persistence code's operation trace opens and
writes the destination path itself and contains no rename, so it does not
follow the write-temp-then-rename discipline the claim states. -/
theorem C8_counterexample :
    ¬ atomicViaTempRename (persistTrace "monthly_sp500.csv") "monthly_sp500.csv" := by
  rintro ⟨tmp, -, -, hmem⟩
  simp [persistTrace] at hmem

/-- C1 (counterexample): the code's classifier cannot be the spec's
seven-bucket table. It returns identical records at `11.999` and `15`, which
the table separates (`Screaming-Buy` vs `Very-Attractive`); and at the
claim's own example points it answers `FAIR VALUE` at `16.0` (table:
`Attractive`) and `VERY EXPENSIVE` at `35.0` (table: `Bubble`). -/
theorem C1_counterexample :
    determine_market_status (11999 / 1000) = determine_market_status 15 ∧
    specClassifyBucket (11999 / 1000) ≠ specClassifyBucket 15 ∧
    (determine_market_status 16).status_text = "FAIR VALUE" ∧
    specClassifyBucket 16 = "Attractive" ∧
    (determine_market_status 35).status_text = "VERY EXPENSIVE" ∧
    specClassifyBucket 35 = "Bubble" := by
  with_unfolding_all decide

/-- C1 (amended): for every ratio `r ≥ 0`, `determine_market_status` returns
the bucket of the unique half-open range containing `r` from the four-row
table `[0,16)→attractive`, `[16,20)→fair`, `[20,25)→expensive`,
`[25,∞)→very-expensive`: exactly one range matches and the first (only)
matching range's status is the returned one; in particular
`classify(16.0) = fair`, `classify(35.0) = very-expensive` and
`classify(11.999) = attractive`. -/
theorem C1_amended (r : ℚ) (h : 0 ≤ r) :
    (statusRanges.filter (fun e => inRange r e.1.1 e.1.2)).length = 1 ∧
    Option.map Prod.snd (statusRanges.find? (fun e => inRange r e.1.1 e.1.2)) =
      Option.some (determine_market_status r) := by
  by_cases h16 : r < 16
  · have h20 : r < 20 := by linarith
    have h25 : r < 25 := by linarith
    constructor <;>
      norm_num [statusRanges, inRange, determine_market_status, h, h16, h20, h25]
  · have h16' : 16 ≤ r := le_of_not_lt h16
    by_cases h20 : r < 20
    · have h25 : r < 25 := by linarith
      constructor <;>
        norm_num [statusRanges, inRange, determine_market_status, h, h16, h16', h20, h25]
    · have h20' : 20 ≤ r := le_of_not_lt h20
      by_cases h25 : r < 25
      · constructor <;>
          norm_num [statusRanges, inRange, determine_market_status,
            h, h16, h16', h20, h20', h25]
      · have h25' : 25 ≤ r := le_of_not_lt h25
        constructor <;>
          norm_num [statusRanges, inRange, determine_market_status,
            h, h16, h16', h20, h20', h25, h25']

/-- C1 (witness): the amended statement at the boundary ratio `16.0`. -/
theorem C1_witness :
    (statusRanges.filter (fun e => inRange 16 e.1.1 e.1.2)).length = 1 ∧
    Option.map Prod.snd (statusRanges.find? (fun e => inRange 16 e.1.1 e.1.2)) =
      Option.some (determine_market_status 16) :=
  C1_amended 16 (by norm_num)

/-- C3 (counterexample): merging an observation for a month already present
does not keep the stored value: the existing record's `PE_Ratio` `10` is
overwritten by the incoming `20`. -/
theorem C3_counterexample :
    update_monthly_data [⟨⟨2025, 1, 31⟩, 2025, 1, 10, 100, ⟨2025, 1, 31⟩⟩]
        ⟨2025, 1, 31⟩ 20 100 =
      [⟨⟨2025, 1, 31⟩, 2025, 1, 20, 100, ⟨2025, 1, 31⟩⟩] ∧
    (20 : ℚ) ≠ 10 := by
  constructor
  · with_unfolding_all decide
  · norm_num

/-- C3 (amended): when the incoming observation's month is already present
(at index `i`), the merge result is a permutation of the series with that one
record REPLACED by the new entry — the incoming value wins and every other
record is unchanged. -/
theorem C3_amended (S : List MonthlyRow) (me : PyDate) (pe pr : ℚ) (i : ℕ)
    (h : S.findIdx? (fun row => sameMonth row.date me) = Option.some i) :
    (update_monthly_data S me pe pr).Perm (S.set i (mkNewEntry me pe pr)) := by
  simp only [update_monthly_data, h]
  exact List.mergeSort_perm _ _

/-- C3 (witness): the amended statement on a one-record series whose single
month is the incoming month. -/
theorem C3_witness :
    (update_monthly_data [⟨⟨2025, 1, 31⟩, 2025, 1, 10, 100, ⟨2025, 1, 31⟩⟩]
        ⟨2025, 1, 31⟩ 20 100).Perm
      ([⟨⟨2025, 1, 31⟩, 2025, 1, 10, 100, ⟨2025, 1, 31⟩⟩].set 0
        (mkNewEntry ⟨2025, 1, 31⟩ 20 100)) :=
  C3_amended [⟨⟨2025, 1, 31⟩, 2025, 1, 10, 100, ⟨2025, 1, 31⟩⟩]
    ⟨2025, 1, 31⟩ 20 100 0 (by decide)

theorem dateLe_trans (a b c : MonthlyRow) :
    dateLe a.date b.date → dateLe b.date c.date → dateLe a.date c.date := by
  simp only [dateLe, Bool.or_eq_true, Bool.and_eq_true, decide_eq_true_eq]
  omega

theorem dateLe_total (a b : MonthlyRow) :
    dateLe a.date b.date || dateLe b.date a.date := by
  simp only [dateLe, Bool.or_eq_true, Bool.and_eq_true, decide_eq_true_eq]
  omega

theorem set_getElem_self_eq {α : Type*} (l : List α) (i : ℕ) (hi : i < l.length) :
    l.set i l[i] = l := by
  apply List.ext_getElem (by simp)
  intro j hj1 hj2
  simp only [List.getElem_set]
  split
  · next heq => subst heq; rfl
  · rfl

/-- Sorting by date keeps rows with pairwise-distinct periods strictly
ascending by period: sorted dates plus distinct periods give strict period
order. -/
theorem pairwise_periodLt_of_sorted (l : List MonthlyRow)
    (h : (l.map rowPeriod).Nodup) :
    List.Pairwise periodLt (l.mergeSort (fun a b => dateLe a.date b.date)) := by
  have hperm := List.mergeSort_perm l (fun a b => dateLe a.date b.date)
  have hsorted := List.sorted_mergeSort
    (fun a b c => dateLe_trans a b c) (fun a b => dateLe_total a b) l
  have hnodup : ((l.mergeSort (fun a b => dateLe a.date b.date)).map rowPeriod).Nodup :=
    ((hperm.map rowPeriod).nodup_iff).mpr h
  have hne : List.Pairwise (fun a b => rowPeriod a ≠ rowPeriod b)
      (l.mergeSort (fun a b => dateLe a.date b.date)) := List.pairwise_map.mp hnodup
  refine (hsorted.and hne).imp ?_
  intro a b hab
  obtain ⟨hle, hnep⟩ := hab
  simp only [dateLe, Bool.or_eq_true, Bool.and_eq_true, decide_eq_true_eq] at hle
  simp only [rowPeriod, Ne, Prod.mk.injEq, not_and] at hnep
  unfold periodLt
  omega

/-- C4 (counterexample): merging into a series that already violates
uniqueness (two January-2025 rows) does not restore it — the result still
contains two records of the same period, so it is not strictly ascending. -/
theorem C4_counterexample :
    ¬ List.Pairwise periodLt
      (update_monthly_data
        [⟨⟨2025, 1, 31⟩, 2025, 1, 10, 100, ⟨2025, 1, 31⟩⟩,
         ⟨⟨2025, 1, 15⟩, 2025, 1, 11, 100, ⟨2025, 1, 31⟩⟩]
        ⟨2025, 3, 31⟩ 20 100) := by
  with_unfolding_all decide

/-- C4 (amended): for every series whose periods are pairwise distinct (the
store invariant) and every incoming observation, the merge result is strictly
ascending by period — periods are unique and sorted ascending. -/
theorem C4_amended (S : List MonthlyRow) (me : PyDate) (pe pr : ℚ)
    (h : (S.map rowPeriod).Nodup) :
    List.Pairwise periodLt (update_monthly_data S me pe pr) := by
  simp only [update_monthly_data]
  apply pairwise_periodLt_of_sorted
  cases hidx : S.findIdx? (fun row => sameMonth row.date me) with
  | some i =>
    simp only [hidx]
    obtain ⟨hi, hp, -⟩ := List.findIdx?_eq_some_iff_getElem.mp hidx
    simp only [sameMonth, Bool.and_eq_true, decide_eq_true_eq] at hp
    have hi' : i < (S.map rowPeriod).length := by simpa using hi
    have hpe : rowPeriod (mkNewEntry me pe pr) = (S.map rowPeriod)[i] := by
      simp [rowPeriod, mkNewEntry, hp.1, hp.2]
    rw [List.map_set, hpe, set_getElem_self_eq _ i hi']
    exact h
  | none =>
    simp only [hidx]
    have hnone := List.findIdx?_eq_none_iff.mp hidx
    rw [List.map_append, List.nodup_append]
    refine ⟨h, by simp, ?_⟩
    intro p hp1 hp2
    simp only [List.map_cons, List.map_nil, List.mem_cons, List.not_mem_nil,
      or_false] at hp2
    obtain ⟨row, hrow, hpr⟩ := List.mem_map.mp hp1
    have hrowne := hnone row hrow
    rw [hp2] at hpr
    simp only [rowPeriod, mkNewEntry, Prod.mk.injEq] at hpr
    simp only [sameMonth, Bool.and_eq_false_iff, decide_eq_false_iff_not] at hrowne
    rcases hrowne with h1 | h2
    · exact h1 hpr.1
    · exact h2 hpr.2

/-- C4 (witness): the amended statement on a two-record series with distinct
periods and an incoming observation of a fresh month. -/
theorem C4_witness :
    List.Pairwise periodLt
      (update_monthly_data
        [⟨⟨2025, 1, 31⟩, 2025, 1, 10, 100, ⟨2025, 1, 31⟩⟩,
         ⟨⟨2025, 2, 28⟩, 2025, 2, 11, 100, ⟨2025, 2, 28⟩⟩]
        ⟨2025, 3, 31⟩ 20 100) :=
  C4_amended
    [⟨⟨2025, 1, 31⟩, 2025, 1, 10, 100, ⟨2025, 1, 31⟩⟩,
     ⟨⟨2025, 2, 28⟩, 2025, 2, 11, 100, ⟨2025, 2, 28⟩⟩]
    ⟨2025, 3, 31⟩ 20 100 (by decide)

/-- C8 (amended): persistence writes the destination file in place —
`open(target, 'w')` truncates the target, then the data is written and the
file closed; no temporary file and no rename are involved, so the previous
file version is not retained while the write is in progress. -/
theorem C8_persist_amended (target : String) :
    persistTrace target =
      [FsEvent.openWrite target, FsEvent.writeAll target, FsEvent.close target] ∧
    ∀ src dst, FsEvent.rename src dst ∉ persistTrace target := by
  refine ⟨rfl, ?_⟩
  intro src dst hmem
  simp [persistTrace] at hmem

end MarketCycle
